import Mathlib

/-!
Verification of the todoapp-api-golang repository against its natural-language
specification.  The Go source is shallowly embedded: each Lean definition below
is translated from a named Go function of the repository.  Machine integers are
modelled as `Int`/`Nat` (no overflow is relevant to the claims), Go `error`
values as `Except String`, Go byte-length `len` on strings as the sum of UTF-8
byte sizes of the characters, and the SQL store as a list of rows (the SQL
`ORDER BY created_at DESC` clause is modelled as a stable descending sort on
the `createdAt` field).  Wall-clock time (`NOW()` / `time.Now()`) is passed
explicitly as a `now : Nat` parameter.
-/

/-! ### Go string primitives -/

/-- Byte length of a UTF-8 encoded character list; `utf8Len s.data` models
Go's `len(s)` on a string (Go strings are raw UTF-8 bytes). -/
def utf8Len : List Char → Nat
  | [] => 0
  | c :: cs => c.utf8Size + utf8Len cs

/-- Go `len(s)` for a string: its UTF-8 byte count. -/
def goLen (s : String) : Nat := utf8Len s.data

/-- Substring test on character lists: some suffix of `l` starts with `pat`. -/
def listContainsSub (pat l : List Char) : Bool :=
  l.tails.any (fun t => pat.isPrefixOf t)

/-- Go `strings.Contains(s, pat)`. -/
def strContains (s pat : String) : Bool := listContainsSub pat.data s.data

/-- Go `strconv.Atoi`: optional sign followed by at least one decimal digit;
anything else is a parse error (`none`).  Overflow of 64-bit `int` is not
modelled; the identifiers in the claims are small. -/
def goAtoi (s : String) : Option Int :=
  match s.data with
  | [] => none
  | c :: rest =>
    let neg : Bool := c = '-'
    let digits : List Char := if c = '-' ∨ c = '+' then rest else c :: rest
    if digits.isEmpty then none
    else if digits.all (fun d => d.isDigit) then
      let n : Nat := digits.foldl (fun acc d => acc * 10 + (d.toNat - '0'.toNat)) 0
      some (if neg then -(n : Int) else (n : Int))
    else none

/-- A Go slice value: Go distinguishes the `nil` slice (the zero value of
`var todos []*entity.Todo`) from a non-nil empty slice; `append` always
produces a non-nil slice. -/
structure GoSlice (α : Type) where
  isNil : Bool
  elems : List α
deriving DecidableEq, Repr

/-- Go `append(s, x)`: the result is never nil. -/
def GoSlice.push {α : Type} (s : GoSlice α) (x : α) : GoSlice α :=
  ⟨false, s.elems ++ [x]⟩

/-! ### Entity layer: `internal/domain/entity/todo.go` -/

/-- The `Todo` entity (`entity.Todo`).  Timestamps are abstract `Nat` instants. -/
structure Todo where
  id : Int
  title : String
  description : String
  isCompleted : Bool
  createdAt : Nat
  updatedAt : Nat
deriving DecidableEq, Repr

/-- `Todo.IsValid` (todo.go lines 47-51): `len(t.Title) > 0 && len(t.Title) <= 100`.
Note the code does NOT call `strings.TrimSpace` (despite its own comment) and
does not constrain `Description`. -/
def Todo.isValid (t : Todo) : Bool :=
  decide (0 < goLen t.title) && decide (goLen t.title ≤ 100)

/-- `Todo.MarkAsCompleted` (todo.go lines 55-57): sets the flag only; it does
not touch `UpdatedAt`. -/
def Todo.markAsCompleted (t : Todo) : Todo := { t with isCompleted := true }

/-- `Todo.MarkAsIncomplete` (todo.go lines 60-62). -/
def Todo.markAsIncomplete (t : Todo) : Todo := { t with isCompleted := false }

/-! ### Repository layer: SQL-backed `todoRepositoryImpl`
(`src/unnamed/part_007`).  The `todos` table is a `List Todo`; `WHERE id = ?`
selects rows whose `id` field matches; `NOW()` is the `now` parameter. -/

/-- Stable insertion of a row into a list sorted by `createdAt` descending:
`t` is placed before the first row whose `createdAt` is not larger. -/
def insertByCreatedAtDesc (t : Todo) : List Todo → List Todo
  | [] => [t]
  | u :: us =>
    if u.createdAt ≤ t.createdAt then t :: u :: us
    else u :: insertByCreatedAtDesc t us

/-- Semantics of the SQL clause `ORDER BY created_at DESC`: a stable sort of
the table rows by `createdAt`, largest first. -/
def sqlOrderByCreatedAtDesc (rows : List Todo) : List Todo :=
  rows.foldr insertByCreatedAtDesc []

/-- `todoRepositoryImpl.GetByID` (part_007 lines 73-104): `SELECT ... WHERE
id = ?` via `QueryRowContext`, which yields the first matching row;
`sql.ErrNoRows` becomes the error string `"todo not found"`. -/
def repoGetByID (store : List Todo) (id : Int) : Except String Todo :=
  match store.find? (fun r => r.id = id) with
  | some t => .ok t
  | none => .error "todo not found"

/-- `todoRepositoryImpl.GetAll` (part_007 lines 108-157): `SELECT ... ORDER BY
created_at DESC`, then rows are appended one by one onto the zero-valued
(nil) slice `var todos []*entity.Todo`. -/
def repoGetAll (store : List Todo) : GoSlice Todo :=
  (sqlOrderByCreatedAtDesc store).foldl GoSlice.push ⟨true, []⟩

/-- `todoRepositoryImpl.Update` (part_007 lines 161-196): `UPDATE todos SET
title = ?, description = ?, is_completed = ?, updated_at = NOW() WHERE id = ?`;
if the affected-row count is zero the error is `"todo not found"`, otherwise
the updated row is re-fetched with `GetByID`. -/
def repoUpdate (now : Nat) (store : List Todo) (t : Todo) :
    Except String (List Todo × Todo) :=
  let newStore := store.map (fun r =>
    if r.id = t.id then
      { r with title := t.title, description := t.description,
               isCompleted := t.isCompleted, updatedAt := now }
    else r)
  let affected := store.countP (fun r => decide (r.id = t.id))
  if affected = 0 then .error "todo not found"
  else
    match repoGetByID newStore t.id with
    | .error e => .error e
    | .ok u => .ok (newStore, u)

/-- `todoRepositoryImpl.Delete` (part_007 lines 200-222): `DELETE FROM todos
WHERE id = ?`; zero affected rows yields `"todo not found"`. -/
def repoDelete (store : List Todo) (id : Int) : Except String (List Todo) :=
  let affected := store.countP (fun r => decide (r.id = id))
  if affected = 0 then .error "todo not found"
  else .ok (store.filter (fun r => ¬ r.id = id))

/-- `todoRepositoryImpl.Create` (part_007 lines 39-68): `INSERT ... VALUES
(?, ?, false, NOW(), NOW())`.  The driver outcome of `ExecContext` +
`LastInsertId` is abstracted as `driver : Except String Int` (the assigned id
or the driver error). -/
def repoCreate (driver : Except String Int) (now : Nat) (t : Todo) :
    Except String Todo :=
  match driver with
  | .error e => .error ("failed to insert todo: " ++ e)
  | .ok newId =>
    .ok { t with id := newId, isCompleted := false, createdAt := now, updatedAt := now }

/-! ### Domain service layer: `internal/domain/service/todo_service.go` -/

/-- `TodoService.CreateTodo` (todo_service.go lines 40-59). -/
def serviceCreateTodo (driver : Except String Int) (now : Nat) (todo : Todo) :
    Except String Todo :=
  if todo.isValid = false then
    .error "todo validation failed: title is required and must be 100 characters or less"
  else
    match repoCreate driver now todo with
    | .error e => .error ("failed to create todo: " ++ e)
    | .ok created => .ok created

/-- `TodoService.GetTodoByID` (todo_service.go lines 62-75). -/
def serviceGetTodoByID (store : List Todo) (id : Int) : Except String Todo :=
  if id ≤ 0 then .error "invalid todo ID: must be greater than 0"
  else
    match repoGetByID store id with
    | .error e => .error ("failed to get todo with ID " ++ toString id ++ ": " ++ e)
    | .ok t => .ok t

/-- `TodoService.GetAllTodos` (todo_service.go lines 78-89): pure delegation
to the repository (the repository model cannot fail). -/
def serviceGetAllTodos (store : List Todo) : Except String (GoSlice Todo) :=
  .ok (repoGetAll store)

/-- `TodoService.UpdateTodo` (todo_service.go lines 92-120): id guard,
validation, existence check via `GetByID`, then the repository write. -/
def serviceUpdateTodo (now : Nat) (store : List Todo) (todo : Todo) :
    Except String (List Todo × Todo) :=
  if todo.id ≤ 0 then .error "invalid todo ID: must be greater than 0"
  else if todo.isValid = false then
    .error "todo validation failed: title is required and must be 100 characters or less"
  else
    match repoGetByID store todo.id with
    | .error e => .error ("todo with ID " ++ toString todo.id ++ " not found: " ++ e)
    | .ok _ =>
      match repoUpdate now store todo with
      | .error e => .error ("failed to update todo: " ++ e)
      | .ok r => .ok r

/-- `TodoService.DeleteTodo` (todo_service.go lines 123-146). -/
def serviceDeleteTodo (store : List Todo) (id : Int) : Except String (List Todo) :=
  if id ≤ 0 then .error "invalid todo ID: must be greater than 0"
  else
    match repoGetByID store id with
    | .error e => .error ("todo with ID " ++ toString id ++ " not found: " ++ e)
    | .ok _ =>
      match repoDelete store id with
      | .error e => .error ("failed to delete todo: " ++ e)
      | .ok s => .ok s

/-- `TodoService.CompleteTodo` (todo_service.go lines 150-167): fetch via the
repository directly (no `id ≤ 0` guard, no already-completed check), mark
completed, persist via `Update`. -/
def serviceCompleteTodo (now : Nat) (store : List Todo) (id : Int) :
    Except String (List Todo × Todo) :=
  match repoGetByID store id with
  | .error e => .error ("todo with ID " ++ toString id ++ " not found: " ++ e)
  | .ok todo =>
    match repoUpdate now store todo.markAsCompleted with
    | .error e => .error ("failed to complete todo: " ++ e)
    | .ok r => .ok r

/-- `TodoService.IncompleteTodo` (todo_service.go lines 170-187). -/
def serviceIncompleteTodo (now : Nat) (store : List Todo) (id : Int) :
    Except String (List Todo × Todo) :=
  match repoGetByID store id with
  | .error e => .error ("todo with ID " ++ toString id ++ " not found: " ++ e)
  | .ok todo =>
    match repoUpdate now store todo.markAsIncomplete with
    | .error e => .error ("failed to mark todo as incomplete: " ++ e)
    | .ok r => .ok r

/-! ### DTO layer: `internal/application/dto` -/

/-- Pagination metadata of `dto.ListMetaResponse`. -/
structure ListMeta where
  total : Int
  page : Int
  limit : Int
  totalPages : Int
deriving DecidableEq, Repr

/-- Response bodies at DTO level.  The JSON encoding of a DTO is a lossless
projection (spec section 1), so bodies are modelled as the DTO values that
`writeJSONResponse` encodes; `text` is a raw body written by `http.Error`
(plain text, not JSON). -/
inductive Body where
  | empty : Body
  | text (s : String) : Body
  | jsonError (error : String) (details : String) : Body
  | jsonTodo (t : Todo) : Body
  | jsonTodoList (todos : List Todo) (meta : ListMeta) : Body
deriving DecidableEq, Repr

/-- An HTTP response as a handler produces it: status code plus body. -/
structure HttpResp where
  status : Nat
  body : Body
deriving DecidableEq, Repr

/-- `dto.CreateTodoRequest` (standard-package variant). -/
structure CreateReq where
  title : String
  description : String
deriving DecidableEq, Repr

/-- `dto.UpdateTodoRequest`: nullable pointer fields distinguishing omitted
from present. -/
structure UpdateReq where
  title : Option String
  description : Option String
  isCompleted : Option Bool
deriving DecidableEq, Repr

/-- `CreateTodoRequest.ToEntity` (todo_response.go lines 136-143): id,
timestamps and the completion flag take Go zero values. -/
def CreateReq.toEntity (req : CreateReq) : Todo :=
  ⟨0, req.title, req.description, false, 0, 0⟩

/-- `UpdateTodoRequest.ApplyToEntity` (todo_response.go lines 147-162):
copy the present fields onto the fetched entity. -/
def UpdateReq.applyToEntity (req : UpdateReq) (todo : Todo) : Todo :=
  let todo := match req.title with
    | some t => { todo with title := t }
    | none => todo
  let todo := match req.description with
    | some d => { todo with description := d }
    | none => todo
  match req.isCompleted with
    | some b => { todo with isCompleted := b }
    | none => todo

/-- `dto.ToTodoListResponse` (todo_response.go lines 111-133): the todo list is
mapped element-wise (no slicing), `totalPages` is `total/limit` rounded up with
Go's truncated integer division. -/
def toTodoListResponse (todos : List Todo) (page limit total : Int) : Body :=
  let totalPages := total.tdiv limit + (if total.tmod limit ≠ 0 then 1 else 0)
  .jsonTodoList todos ⟨total, page, limit, totalPages⟩

/-! ### Handler layer: `internal/application/handler/todo_handler.go`.
Each handler model covers the code path after the method and Content-Type
guards and after a successful JSON decode (the claims under study concern the
later steps); the identifier path segment `pathParts[3]` is passed in as
`seg`, exactly the value the router extracted. -/

/-- `writeErrorResponse` (todo_handler.go lines 386-392). -/
def writeErrorResponse (status : Nat) (message details : String) : HttpResp :=
  ⟨status, .jsonError message details⟩

/-- `TodoHandler.CreateTodo` (todo_handler.go lines 44-100): manual validation
(empty title, title byte length over 100, description byte length over 500 —
no trimming), then the domain service, then 201 with the created todo. -/
def handlerCreateTodo (driver : Except String Int) (now : Nat) (req : CreateReq) :
    HttpResp :=
  if req.title = "" then
    writeErrorResponse 400 "Validation failed" "title is required"
  else if 100 < goLen req.title then
    writeErrorResponse 400 "Validation failed" "title must be 100 characters or less"
  else if 500 < goLen req.description then
    writeErrorResponse 400 "Validation failed" "description must be 500 characters or less"
  else
    match serviceCreateTodo driver now req.toEntity with
    | .error e => writeErrorResponse 500 "Failed to create todo" e
    | .ok created => ⟨201, .jsonTodo created⟩

/-- `TodoHandler.GetTodoByID` (todo_handler.go lines 107-144): parse the id
segment with `strconv.Atoi` (non-numeric gives 400), call the service, and map
errors whose text contains `"not found"` to 404, all others to 500. -/
def handlerGetTodoByID (store : List Todo) (seg : String) : HttpResp :=
  match goAtoi seg with
  | none => writeErrorResponse 400 "Invalid todo ID" "ID must be a number"
  | some id =>
    match serviceGetTodoByID store id with
    | .error e =>
      if strContains e "not found" then writeErrorResponse 404 "Todo not found" ""
      else writeErrorResponse 500 "Failed to get todo" e
    | .ok todo => ⟨200, .jsonTodo todo⟩

/-- The `page` parsing of `TodoHandler.GetAllTodos` (todo_handler.go lines
162-167): default 1, replaced only by a positive numeric parameter. -/
def goParsePage (p : String) : Int :=
  if p ≠ "" then
    match goAtoi p with
    | some n => if 0 < n then n else 1
    | none => 1
  else 1

/-- The `limit` parsing of `GetAllTodos` (todo_handler.go lines 169-174):
default 10, replaced only by a numeric value in 1..100; an out-of-range value
keeps the default rather than being clamped. -/
def goParseLimit (l : String) : Int :=
  if l ≠ "" then
    match goAtoi l with
    | some n => if 0 < n ∧ n ≤ 100 then n else 10
    | none => 10
  else 10

/-- `TodoHandler.GetAllTodos` (todo_handler.go lines 151-186): parse the query
parameters, fetch everything through the service, and pass the collection
unsliced to `ToTodoListResponse` with `total = len(todos)`. -/
def handlerGetAllTodos (store : List Todo) (pageP limitP : String) : HttpResp :=
  match serviceGetAllTodos store with
  | .error e => writeErrorResponse 500 "Failed to get todos" e
  | .ok todos =>
    ⟨200, toTodoListResponse todos.elems (goParsePage pageP) (goParseLimit limitP)
      (todos.elems.length : Int)⟩

/-- `TodoHandler.UpdateTodo` (todo_handler.go lines 190-249): parse the id,
fetch the existing todo through the service, apply the partial update, then
`UpdateTodo`; a failing write is always reported as 500 (no not-found split on
the write step). -/
def handlerUpdateTodo (now : Nat) (store : List Todo) (seg : String)
    (req : UpdateReq) : HttpResp :=
  match goAtoi seg with
  | none => writeErrorResponse 400 "Invalid todo ID" "ID must be a number"
  | some id =>
    match serviceGetTodoByID store id with
    | .error e =>
      if strContains e "not found" then writeErrorResponse 404 "Todo not found" ""
      else writeErrorResponse 500 "Failed to get todo" e
    | .ok todo =>
      match serviceUpdateTodo now store (req.applyToEntity todo) with
      | .error e => writeErrorResponse 500 "Failed to update todo" e
      | .ok (_, updated) => ⟨200, .jsonTodo updated⟩

/-- `TodoHandler.DeleteTodo` (todo_handler.go lines 253-286). -/
def handlerDeleteTodo (store : List Todo) (seg : String) : HttpResp :=
  match goAtoi seg with
  | none => writeErrorResponse 400 "Invalid todo ID" "ID must be a number"
  | some id =>
    match serviceDeleteTodo store id with
    | .error e =>
      if strContains e "not found" then writeErrorResponse 404 "Todo not found" ""
      else writeErrorResponse 500 "Failed to delete todo" e
    | .ok _ => ⟨204, .empty⟩

/-! ### Router: `web.Router` (`src/unnamed/part_008`) -/

/-- HTTP methods used by the router. -/
inductive Method where
  | GET | POST | PUT | DELETE | PATCH | OPTIONS
deriving DecidableEq, Repr

/-- Go `strings.TrimPrefix(s, p)`. -/
def goTrimPrefix (s p : String) : String :=
  if p.data.isPrefixOf s.data then ⟨s.data.drop p.data.length⟩ else s

/-- Go `strings.Trim(s, "/")`: strip leading and trailing slashes. -/
def trimSlashes (s : String) : String :=
  ⟨((s.data.dropWhile (fun c => c = '/')).reverse.dropWhile (fun c => c = '/')).reverse⟩

/-- Split a character list on a separator character; mirrors Go
`strings.Split` for a one-character separator (the empty input yields one
empty field). -/
def splitOnChar (c : Char) : List Char → List (List Char)
  | [] => [[]]
  | x :: xs =>
    match splitOnChar c xs with
    | [] => [[]]
    | g :: gs => if x = c then [] :: g :: gs else (x :: g) :: gs

/-- Go `strings.Split(s, "/")`. -/
def goSplitSlash (s : String) : List String :=
  (splitOnChar '/' s.data).map (fun l => ⟨l⟩)

/-- Outcome of routing inside `apiV1Handler`: which handler is invoked with
which path segments, or the immediate error response (`notFound` stands for
`http.NotFound` = 404; `methodNotAllowed allow` for a 405 with that `Allow`
header; `badRequest` for the router's own 400). -/
inductive Routed where
  | list
  | create
  | getItem (seg : String)
  | putItem (seg : String)
  | deleteItem (seg : String)
  | completeItem (seg : String)
  | incompleteItem (seg : String)
  | notFound
  | methodNotAllowed (allow : String)
  | badRequest
deriving DecidableEq, Repr

/-- `Router.handleTodoCollection` (part_008 lines 132-145). -/
def handleTodoCollection (method : Method) : Routed :=
  match method with
  | .GET => .list
  | .POST => .create
  | _ => .methodNotAllowed "GET, POST"

/-- `Router.handleTodoItem` (part_008 lines 149-171): empty-id check, then
dispatch on the method. -/
def handleTodoItem (method : Method) (seg : String) : Routed :=
  if seg = "" then .badRequest
  else
    match method with
    | .GET => .getItem seg
    | .PUT => .putItem seg
    | .DELETE => .deleteItem seg
    | _ => .methodNotAllowed "GET, PUT, DELETE"

/-- `Router.handleTodoAction` (part_008 lines 175-200): empty-id check, PATCH
required, then the closed action vocabulary. -/
def handleTodoAction (method : Method) (seg act : String) : Routed :=
  if seg = "" then .badRequest
  else if method ≠ .PATCH then .methodNotAllowed "PATCH"
  else
    match act with
    | "complete" => .completeItem seg
    | "incomplete" => .incompleteItem seg
    | _ => .notFound

/-- `Router.handleTodosRoutes` (part_008 lines 114-128): dispatch on the
remaining segment count. -/
def handleTodosRoutes (method : Method) (segments : List String) : Routed :=
  match segments with
  | [] => handleTodoCollection method
  | [seg] => handleTodoItem method seg
  | [seg, act] => handleTodoAction method seg act
  | _ => .notFound

/-- `Router.apiV1Handler` (part_008 lines 80-101): strip the `/api/v1` prefix,
trim slashes, split on `/`, then dispatch on the resource family. -/
def routeApiV1 (method : Method) (path : String) : Routed :=
  let p := trimSlashes (goTrimPrefix path "/api/v1")
  let segments := goSplitSlash p
  match segments with
  | [] => .notFound
  | s0 :: rest =>
    if s0 = "" then .notFound
    else if s0 = "todos" then handleTodosRoutes method rest
    else .notFound

/-! ### Middleware chain (implementation embedded at
`todo_handler_test.go` lines 733-749, 858-914, 958-1026; wired in
`Router.SetupRoutes`, part_008 lines 46-51).

The `http.ResponseWriter` header map is threaded as an association list with
`Set` semantics; a handler either completes with a response or panics, and log
lines are collected chronologically.  The time-based token of
`generateRequestID` is passed in as the `fresh` parameter; the real duration
value of the access log line is not modelled (wall time), only the fact that
the line is emitted with a status and size is. -/

/-- One emitted log line. -/
inductive LogEntry where
  | reqId (id : String) : LogEntry
  | access (method : Method) (path : String) (status : Nat) : LogEntry
  | panicLog (msg : String) (method : Method) (path : String) : LogEntry
deriving DecidableEq, Repr

/-- Headers with `http.Header.Set` semantics. -/
def Headers := List (String × String)

/-- `w.Header().Set(k, v)`: replace any previous value of `k`. -/
def setHeader (hs : Headers) (k v : String) : Headers :=
  (k, v) :: hs.filter (fun p => ¬ p.1 = k)

/-- `r.Header.Get(k)`: empty string when absent. -/
def getHeader (hs : Headers) (k : String) : String :=
  match hs.find? (fun p => p.1 = k) with
  | some p => p.2
  | none => ""

/-- Lookup that distinguishes an absent header from an empty one. -/
def lookupHeader (hs : Headers) (k : String) : Option String :=
  (hs.find? (fun p => p.1 = k)).map (fun p => p.2)

/-- An inbound request. -/
structure Request where
  method : Method
  path : String
  headers : Headers

/-- A written response: status, the response header map, and the body. -/
structure MwResp where
  status : Nat
  headers : Headers
  body : Body

/-- Result of running a handler: either a completed response plus the log
lines emitted, or a panic that unwound out of it (carrying the headers already
set on the writer and the log lines emitted before the panic). -/
inductive HResult where
  | done (r : MwResp) (logs : List LogEntry) : HResult
  | panicked (msg : String) (hs : Headers) (logs : List LogEntry) : HResult

/-- A handler: receives the request and the headers already set on the
response writer by outer layers. -/
def MwHandler := Request → Headers → HResult

/-- `RequestIDMiddleware` (todo_handler_test.go lines 958-977): reuse the
inbound `X-Request-ID` or generate a fresh one, set it on the response writer,
log it, then run the inner handler. -/
def RequestIDMiddleware (fresh : String) (next : MwHandler) : MwHandler :=
  fun req hs =>
    let rid0 := getHeader req.headers "X-Request-ID"
    let rid := if rid0 = "" then fresh else rid0
    let hs := setHeader hs "X-Request-ID" rid
    match next req hs with
    | .done r logs => .done r (.reqId rid :: logs)
    | .panicked m h logs => .panicked m h (.reqId rid :: logs)

/-- `SimpleCORSMiddleware` (todo_handler_test.go lines 733-749): set the three
permissive headers; answer `OPTIONS` preflights immediately with 200 and no
inner execution; otherwise continue. -/
def SimpleCORSMiddleware (next : MwHandler) : MwHandler :=
  fun req hs =>
    let hs := setHeader hs "Access-Control-Allow-Origin" "*"
    let hs := setHeader hs "Access-Control-Allow-Methods" "GET, POST, PUT, DELETE, OPTIONS"
    let hs := setHeader hs "Access-Control-Allow-Headers" "Content-Type, Authorization"
    if req.method = .OPTIONS then .done ⟨200, hs, .empty⟩ []
    else next req hs

/-- `LoggingMiddleware` (todo_handler_test.go lines 888-914): wrap the writer
in a `ResponseRecorder`, run the inner handler, then emit one access-log line
with the recorded status (and size/duration).  The log statement is not
deferred, so a panic unwinding through this frame skips it. -/
def LoggingMiddleware (next : MwHandler) : MwHandler :=
  fun req hs =>
    match next req hs with
    | .done r logs => .done r (logs ++ [.access req.method req.path r.status])
    | .panicked m h logs => .panicked m h logs

/-- `RecoveryMiddleware` (todo_handler_test.go lines 981-1001): a deferred
`recover` turns a panic into `http.Error(w, "Internal Server Error", 500)`
(which sets plain-text headers and writes the message plus a newline), after
logging the panic with the request method and path. -/
def RecoveryMiddleware (next : MwHandler) : MwHandler :=
  fun req hs =>
    match next req hs with
    | .done r logs => .done r logs
    | .panicked m h logs =>
      let h := setHeader h "Content-Type" "text/plain; charset=utf-8"
      let h := setHeader h "X-Content-Type-Options" "nosniff"
      .done ⟨500, h, .text "Internal Server Error\n"⟩
        (logs ++ [.panicLog m req.method req.path])

/-- `ChainMiddleware` (todo_handler_test.go lines 1017-1026):
`Chain(A, B, C)(h) = A(B(C(h)))`. -/
def ChainMiddleware (ms : List (MwHandler → MwHandler)) (final : MwHandler) :
    MwHandler :=
  ms.foldr (fun m acc => m acc) final

/-- The chain wired in `Router.SetupRoutes` (part_008 lines 46-51): Recovery
outermost, then Logging, then CORS, then RequestID, around the mux. -/
def fullChain (fresh : String) (inner : MwHandler) : MwHandler :=
  ChainMiddleware
    [RecoveryMiddleware, LoggingMiddleware, SimpleCORSMiddleware,
     RequestIDMiddleware fresh] inner

/-- The response part of a handler result, when it completed. -/
def HResult.respOf : HResult → Option MwResp
  | .done r _ => some r
  | .panicked _ _ _ => none

/-- The log lines of a handler result. -/
def HResult.logsOf : HResult → List LogEntry
  | .done _ logs => logs
  | .panicked _ _ logs => logs

/-- The `X-Request-ID` response header of a completed result. -/
def HResult.xRequestID : HResult → Option String
  | .done r _ => lookupHeader r.headers "X-Request-ID"
  | .panicked _ _ _ => none

/-- Number of access-log lines in a log. -/
def accessCount (logs : List LogEntry) : Nat :=
  logs.countP (fun e => match e with | .access _ _ _ => true | _ => false)

/-- Number of panic-log lines in a log. -/
def panicLogCount (logs : List LogEntry) : Nat :=
  logs.countP (fun e => match e with | .panicLog _ _ _ => true | _ => false)

/-- An inner handler that always panics, modelling a handler whose execution
raises an unexpected runtime fault. -/
def panicHandler (msg : String) : MwHandler :=
  fun _ hs => .panicked msg hs []

/-- A trivial inner handler that completes with a 200 and the headers it was
given (used to instantiate middleware theorems). -/
def okHandler : MwHandler :=
  fun _ hs => .done ⟨200, hs, .empty⟩ []

/-! ### Spec-side definitions and demo fixtures -/

/-- Modelled from the spec's words only (for comparison with the code): "the
correct slice of the full collection for the requested page and limit". -/
def specSlice {α : Type} (l : List α) (page limit : Nat) : List α :=
  (l.drop ((page - 1) * limit)).take limit

/-- Go `strings.TrimSpace` (used to state the spec's trimmed-length rule;
the code itself never trims). -/
def goTrimSpace (s : String) : String :=
  ⟨((s.data.dropWhile Char.isWhitespace).reverse.dropWhile Char.isWhitespace).reverse⟩

/-- A string of `n` copies of the letter a (one UTF-8 byte each). -/
def repChar (n : Nat) : String := ⟨List.replicate n 'a'⟩

/-- The todo list of a list-response body, if the response carries one. -/
def HttpResp.bodyTodos (r : HttpResp) : Option (List Todo) :=
  match r.body with
  | .jsonTodoList ts _ => some ts
  | _ => none

/-- The meta block of a list-response body, if the response carries one. -/
def HttpResp.bodyMeta (r : HttpResp) : Option ListMeta :=
  match r.body with
  | .jsonTodoList _ m => some m
  | _ => none

/-- Demo row created first (older `createdAt`). -/
def demoA : Todo := ⟨1, "first", "", false, 1, 1⟩

/-- Demo row created second (newer `createdAt`). -/
def demoB : Todo := ⟨2, "second", "", false, 2, 2⟩

/-- A demo row that is already completed. -/
def demoDone : Todo := ⟨1, "done", "", true, 0, 0⟩

/-! ### Supporting lemmas -/

theorem utf8Len_append (l₁ l₂ : List Char) :
    utf8Len (l₁ ++ l₂) = utf8Len l₁ + utf8Len l₂ := by
  induction l₁ with
  | nil => simp [utf8Len]
  | cons c cs ih => simp [utf8Len, ih]; omega

theorem goLen_pos (s : String) (h : s ≠ "") : 0 < goLen s := by
  match s, h with
  | ⟨[]⟩, h => exact absurd rfl h
  | ⟨c :: cs⟩, _ =>
    have := Char.utf8Size_pos c
    simp only [goLen, utf8Len]
    omega

theorem isPrefixOf_self (l : List Char) : l.isPrefixOf l = true := by
  induction l with
  | nil => rfl
  | cons c cs ih => simp [List.isPrefixOf, ih]

theorem listContainsSub_self (l : List Char) : listContainsSub l l = true := by
  cases l with
  | nil => rfl
  | cons c cs =>
    simp only [listContainsSub, List.tails_cons, List.any_cons]
    rw [isPrefixOf_self]
    rfl

theorem listContainsSub_append (pat l₁ l₂ : List Char)
    (h : listContainsSub pat l₂ = true) :
    listContainsSub pat (l₁ ++ l₂) = true := by
  induction l₁ with
  | nil => simpa using h
  | cons c cs ih =>
    simp only [List.cons_append, listContainsSub, List.tails_cons, List.any_cons]
    rw [Bool.or_eq_true]
    right
    exact ih

theorem strContains_append_suffix (a b : String) :
    strContains (a ++ b) b = true := by
  show listContainsSub b.data (a ++ b).data = true
  rw [String.data_append]
  exact listContainsSub_append _ _ _ (listContainsSub_self b.data)

theorem foldl_push (l : List Todo) : ∀ (b : Bool) (acc : List Todo),
    l.foldl GoSlice.push ⟨b, acc⟩ = ⟨b && l.isEmpty, acc ++ l⟩ := by
  induction l with
  | nil => intro b acc; simp [List.isEmpty]
  | cons t ts ih =>
    intro b acc
    simp only [List.foldl_cons, GoSlice.push, ih, List.isEmpty_cons, Bool.and_false]
    simp

theorem insertByCreatedAtDesc_perm (t : Todo) (l : List Todo) :
    (insertByCreatedAtDesc t l).Perm (t :: l) := by
  induction l with
  | nil => simp [insertByCreatedAtDesc]
  | cons u us ih =>
    simp only [insertByCreatedAtDesc]
    split
    · exact List.Perm.refl _
    · exact (ih.cons u).trans (List.Perm.swap t u us)

theorem sqlOrderBy_perm (l : List Todo) :
    (sqlOrderByCreatedAtDesc l).Perm l := by
  induction l with
  | nil => simp [sqlOrderByCreatedAtDesc]
  | cons t ts ih =>
    simp only [sqlOrderByCreatedAtDesc, List.foldr_cons]
    exact (insertByCreatedAtDesc_perm t _).trans (ih.cons t)

theorem insertByCreatedAtDesc_sorted (t : Todo) (l : List Todo)
    (h : List.Pairwise (fun a b => b.createdAt ≤ a.createdAt) l) :
    List.Pairwise (fun a b => b.createdAt ≤ a.createdAt) (insertByCreatedAtDesc t l) := by
  induction l with
  | nil => simp [insertByCreatedAtDesc]
  | cons u us ih =>
    rw [List.pairwise_cons] at h
    obtain ⟨hu, hus⟩ := h
    simp only [insertByCreatedAtDesc]
    split
    · rename_i hle
      rw [List.pairwise_cons]
      refine ⟨?_, ?_⟩
      · intro b hb
        rcases List.mem_cons.mp hb with hb | hb
        · exact hb ▸ hle
        · exact le_trans (hu b hb) hle
      · exact List.pairwise_cons.mpr ⟨hu, hus⟩
    · rename_i hgt
      rw [List.pairwise_cons]
      refine ⟨?_, ih hus⟩
      intro b hb
      have hmem := (insertByCreatedAtDesc_perm t us).mem_iff.mp hb
      rcases List.mem_cons.mp hmem with hb' | hb'
      · subst hb'
        omega
      · exact hu b hb'

theorem sqlOrderBy_sorted (l : List Todo) :
    List.Pairwise (fun a b => b.createdAt ≤ a.createdAt) (sqlOrderByCreatedAtDesc l) := by
  induction l with
  | nil => simp [sqlOrderByCreatedAtDesc]
  | cons t ts ih =>
    exact insertByCreatedAtDesc_sorted t _ ih

theorem repoGetAll_elems (store : List Todo) :
    (repoGetAll store).elems = sqlOrderByCreatedAtDesc store := by
  simp [repoGetAll, foldl_push]

theorem repoGetAll_isNil (store : List Todo) :
    (repoGetAll store).isNil = true ↔ store = [] := by
  rw [repoGetAll, foldl_push]
  simp only [Bool.true_and, List.isEmpty_iff]
  constructor
  · intro h
    have := (sqlOrderBy_perm store).length_eq
    rw [h] at this
    exact List.length_eq_zero.mp this.symm
  · intro h
    subst h
    rfl

theorem find?_key_filter (hs : Headers) (k k' : String) (h : ¬ k' = k) :
    List.find? (fun p => p.1 = k) (hs.filter (fun p => ¬ p.1 = k')) =
      List.find? (fun p => p.1 = k) hs := by
  induction hs with
  | nil => rfl
  | cons a as ih =>
    by_cases ha : a.1 = k
    · have : ¬ a.1 = k' := fun hk => h (hk ▸ ha)
      rw [List.filter_cons_of_pos (by simpa using this)]
      rw [List.find?_cons_of_pos _ (by simpa using ha),
        List.find?_cons_of_pos _ (by simpa using ha)]
    · by_cases ha' : a.1 = k'
      · rw [List.filter_cons_of_neg (by simpa using ha')]
        rw [List.find?_cons_of_neg _ (by simpa using ha)]
        exact ih
      · rw [List.filter_cons_of_pos (by simpa using ha')]
        rw [List.find?_cons_of_neg _ (by simpa using ha),
          List.find?_cons_of_neg _ (by simpa using ha)]
        exact ih

theorem lookupHeader_set_same (hs : Headers) (k v : String) :
    lookupHeader (setHeader hs k v) k = some v := by
  simp [lookupHeader, setHeader, List.find?_cons_of_pos]

theorem lookupHeader_set_other (hs : Headers) (k k' v : String) (h : ¬ k' = k) :
    lookupHeader (setHeader hs k' v) k = lookupHeader hs k := by
  simp only [lookupHeader, setHeader]
  rw [List.find?_cons_of_neg _ (by simpa using h)]
  rw [find?_key_filter hs k k' h]

/-! ### Claim theorems -/

/-- Claim C9: the router dispatches the literal cases as specified: GET on the
todo collection routes to the list handler, POST to the create handler, GET on
item 42 to the item handler with the segment parsing to 42, PATCH on item 42's
complete action to the complete handler with that id, a PATCH with an
unrecognized action token yields 404 (`http.NotFound`), and DELETE on the
collection yields 405 with an Allow header listing GET, POST. -/
theorem router_dispatch_table :
    routeApiV1 .GET "/api/v1/todos" = .list ∧
    routeApiV1 .POST "/api/v1/todos" = .create ∧
    routeApiV1 .GET "/api/v1/todos/42" = .getItem "42" ∧
    goAtoi "42" = some 42 ∧
    routeApiV1 .PATCH "/api/v1/todos/42/complete" = .completeItem "42" ∧
    routeApiV1 .PATCH "/api/v1/todos/42/bogus" = .notFound ∧
    routeApiV1 .DELETE "/api/v1/todos" = .methodNotAllowed "GET, POST" := by
  refine ⟨?_, ?_, ?_, ?_, ?_, ?_, ?_⟩ <;> decide

/-- Claim C5, counterexample: on the empty store, `GetAll` returns the nil
slice (the zero value of `var todos []*entity.Todo` is returned unchanged when
the row loop never appends), contradicting "returns an empty sequence, never
nil". -/
theorem repoGetAll_nil_on_empty_cex :
    (repoGetAll []).isNil = true ∧ (repoGetAll []).elems = [] := by
  exact ⟨rfl, rfl⟩

/-- Claim C5, amended: `GetAll` returns all rows ordered by `createdAt`
descending (a permutation of the store, sorted), but on the empty store the
returned slice is the nil slice (of length 0), not a non-nil empty
sequence. -/
theorem repoGetAll_amended (store : List Todo) :
    (repoGetAll store).elems = sqlOrderByCreatedAtDesc store ∧
    (sqlOrderByCreatedAtDesc store).Perm store ∧
    List.Pairwise (fun a b => b.createdAt ≤ a.createdAt) (repoGetAll store).elems ∧
    ((repoGetAll store).isNil = true ↔ store = []) := by
  refine ⟨repoGetAll_elems store, sqlOrderBy_perm store, ?_, repoGetAll_isNil store⟩
  rw [repoGetAll_elems store]
  exact sqlOrderBy_sorted store

/-- Claim C5, amended, instantiated at a two-row store. -/
theorem repoGetAll_amended_witness :
    (repoGetAll [demoA, demoB]).elems = sqlOrderByCreatedAtDesc [demoA, demoB] ∧
    ((repoGetAll [demoA, demoB]).isNil = true ↔ ([demoA, demoB] : List Todo) = []) :=
  ⟨(repoGetAll_amended [demoA, demoB]).1, (repoGetAll_amended [demoA, demoB]).2.2.2⟩

/-- Claim C1, evaluation at the failing input: for a stored task that is
already completed (`demoDone`, with `updatedAt = 0`), `CompleteTodo` does not
return it unchanged — it persists an `Update` that stamps `updatedAt` with the
call's time — and the second of two immediate calls (times 1 then 2) returns
`updatedAt = 2`, not the first call's 1.  The service has no already-completed
early return, contradicting the claim (and the repository documentation in
docs/tutorial.md, which shows that early return). -/
theorem completeTodo_bumps_updatedAt_when_already_complete :
    serviceCompleteTodo 1 [demoDone] 1 =
      .ok ([⟨1, "done", "", true, 0, 1⟩], ⟨1, "done", "", true, 0, 1⟩) ∧
    serviceCompleteTodo 2 [⟨1, "done", "", true, 0, 1⟩] 1 =
      .ok ([⟨1, "done", "", true, 0, 2⟩], ⟨1, "done", "", true, 0, 2⟩) ∧
    (⟨1, "done", "", true, 0, 1⟩ : Todo) ≠ demoDone ∧
    (2 : Nat) ≠ 1 := by
  refine ⟨rfl, rfl, by decide, by decide⟩

/-- Claim C4, counterexample: an item request whose identifier segment parses
to 0 is answered with 500, not 400: the service error "invalid todo ID: must
be greater than 0" does not contain "not found", so every handler falls into
its internal-error branch. -/
theorem item_id_nonpositive_500_cex :
    (handlerGetTodoByID [] "0").status = 500 ∧
    (handlerUpdateTodo 0 [] "0" ⟨none, none, none⟩).status = 500 ∧
    (handlerDeleteTodo [] "0").status = 500 ∧
    (500 : Nat) ≠ 400 := by
  refine ⟨rfl, rfl, rfl, by decide⟩

/-- Claim C4, amended: a non-numeric identifier segment yields 400 on GET, PUT
and DELETE item requests, but a segment that parses to an integer at most 0
yields 500 (the service's invalid-id error does not contain "not found" and is
mapped to the internal-error branch). -/
theorem item_id_parse_amended (store : List Todo) (seg : String) (now : Nat)
    (req : UpdateReq) :
    (goAtoi seg = none →
      (handlerGetTodoByID store seg).status = 400 ∧
      (handlerUpdateTodo now store seg req).status = 400 ∧
      (handlerDeleteTodo store seg).status = 400) ∧
    (∀ id, goAtoi seg = some id → id ≤ 0 →
      (handlerGetTodoByID store seg).status = 500 ∧
      (handlerUpdateTodo now store seg req).status = 500 ∧
      (handlerDeleteTodo store seg).status = 500) := by
  constructor
  · intro h
    refine ⟨?_, ?_, ?_⟩ <;>
      simp [handlerGetTodoByID, handlerUpdateTodo, handlerDeleteTodo, h,
        writeErrorResponse]
  · intro id h hle
    have hsvc : serviceGetTodoByID store id =
        .error "invalid todo ID: must be greater than 0" := by
      simp [serviceGetTodoByID, hle]
    have hdel : serviceDeleteTodo store id =
        .error "invalid todo ID: must be greater than 0" := by
      simp [serviceDeleteTodo, hle]
    have hc : strContains "invalid todo ID: must be greater than 0" "not found" = false := by
      decide
    refine ⟨?_, ?_, ?_⟩ <;>
      simp [handlerGetTodoByID, handlerUpdateTodo, handlerDeleteTodo, h, hsvc,
        hdel, hc, writeErrorResponse]

/-- Claim C4, amended, instantiated: segment "abc" gives 400 on all three item
handlers; segment "0" gives 500 on all three. -/
theorem item_id_parse_amended_witness :
    ((handlerGetTodoByID [] "abc").status = 400 ∧
      (handlerUpdateTodo 0 [] "abc" ⟨none, none, none⟩).status = 400 ∧
      (handlerDeleteTodo [] "abc").status = 400) ∧
    ((handlerGetTodoByID [] "0").status = 500 ∧
      (handlerUpdateTodo 0 [] "0" ⟨none, none, none⟩).status = 500 ∧
      (handlerDeleteTodo [] "0").status = 500) :=
  ⟨(item_id_parse_amended [] "abc" 0 ⟨none, none, none⟩).1 (by decide),
   (item_id_parse_amended [] "0" 0 ⟨none, none, none⟩).2 0 (by decide) (by decide)⟩

theorem strContains_self (s : String) : strContains s s = true :=
  listContainsSub_self s.data

theorem strContains_append_right (a b pat : String)
    (h : strContains b pat = true) : strContains (a ++ b) pat = true := by
  show listContainsSub pat.data (a ++ b).data = true
  rw [String.data_append]
  exact listContainsSub_append _ _ _ h

theorem goParsePage_pos (p : String) : 1 ≤ goParsePage p := by
  unfold goParsePage
  split
  · split
    · split <;> omega
    · omega
  · omega

theorem goParseLimit_bounds (l : String) :
    1 ≤ goParseLimit l ∧ goParseLimit l ≤ 100 := by
  unfold goParseLimit
  split
  · split
    · rename_i n _
      split
      · rename_i hn
        omega
      · omega
    · omega
  · omega

theorem goParseLimit_over (l : String) (n : Int) (h : goAtoi l = some n)
    (hn : 100 < n) : goParseLimit l = 10 := by
  unfold goParseLimit
  have hne : l ≠ "" := by
    intro he
    rw [he] at h
    exact Option.noConfusion h
  rw [if_pos hne, h]
  have hnot : ¬ (0 < n ∧ n ≤ 100) := by omega
  show (if 0 < n ∧ n ≤ 100 then n else 10) = 10
  rw [if_neg hnot]

/-- Claim C3, counterexample: with two stored rows and `limit=1`, the
response's task list is the full two-element collection, not the one-element
slice the claim requires for page 1 and limit 1. -/
theorem getAllTodos_not_sliced_cex :
    (handlerGetAllTodos [demoA, demoB] "" "1").bodyTodos = some [demoB, demoA] ∧
    specSlice [demoB, demoA] 1 1 = [demoB] ∧
    ([demoB, demoA] : List Todo) ≠ [demoB] := by
  refine ⟨rfl, rfl, by decide⟩

/-- Claim C3, amended: the list endpoint replies 200 with a
`{todos, meta:{total, page, limit, total_pages}}` body; `page` and `limit`
default to 1 and 10, a limit above 100 (or otherwise out of range) falls back
to the default 10 rather than being clamped, and the returned task list is the
FULL collection in stable `createdAt`-descending order — pagination affects
only the meta block, the list itself is never sliced. -/
theorem getAllTodos_amended (store : List Todo) (pageP limitP : String) :
    (handlerGetAllTodos store pageP limitP).status = 200 ∧
    (handlerGetAllTodos store pageP limitP).bodyTodos =
      some (sqlOrderByCreatedAtDesc store) ∧
    (sqlOrderByCreatedAtDesc store).Perm store ∧
    List.Pairwise (fun a b => b.createdAt ≤ a.createdAt)
      (sqlOrderByCreatedAtDesc store) ∧
    (handlerGetAllTodos store pageP limitP).bodyMeta =
      some ⟨(store.length : Int), goParsePage pageP, goParseLimit limitP,
        ((store.length : Int)).tdiv (goParseLimit limitP) +
          (if ((store.length : Int)).tmod (goParseLimit limitP) ≠ 0 then 1 else 0)⟩ ∧
    goParsePage "" = 1 ∧ goParseLimit "" = 10 ∧
    1 ≤ goParsePage pageP ∧
    1 ≤ goParseLimit limitP ∧ goParseLimit limitP ≤ 100 ∧
    (∀ n, goAtoi limitP = some n → 100 < n → goParseLimit limitP = 10) := by
  have hlen : (sqlOrderByCreatedAtDesc store).length = store.length :=
    (sqlOrderBy_perm store).length_eq
  have hbody : handlerGetAllTodos store pageP limitP =
      ⟨200, .jsonTodoList (sqlOrderByCreatedAtDesc store)
        ⟨(store.length : Int), goParsePage pageP, goParseLimit limitP,
          ((store.length : Int)).tdiv (goParseLimit limitP) +
            (if ((store.length : Int)).tmod (goParseLimit limitP) ≠ 0 then 1 else 0)⟩⟩ := by
    simp [handlerGetAllTodos, serviceGetAllTodos, toTodoListResponse,
      repoGetAll_elems, hlen]
  refine ⟨by rw [hbody], by rw [hbody]; rfl, sqlOrderBy_perm store,
    sqlOrderBy_sorted store, by rw [hbody]; rfl, rfl, rfl,
    goParsePage_pos pageP, (goParseLimit_bounds limitP).1,
    (goParseLimit_bounds limitP).2, fun n h hn => goParseLimit_over limitP n h hn⟩

/-- Claim C3, amended, instantiated: empty parameters give page 1 and limit
10; a limit parameter of 200 falls back to 10. -/
theorem getAllTodos_amended_witness :
    (handlerGetAllTodos [demoA, demoB] "" "200").status = 200 ∧
    goParseLimit "200" = 10 ∧ goParsePage "" = 1 ∧ goParseLimit "" = 10 :=
  ⟨(getAllTodos_amended [demoA, demoB] "" "200").1,
   (getAllTodos_amended [demoA, demoB] "" "200").2.2.2.2.2.2.2.2.2.2 200
     (by decide) (by decide),
   (getAllTodos_amended [demoA, demoB] "" "200").2.2.2.2.2.1,
   (getAllTodos_amended [demoA, demoB] "" "200").2.2.2.2.2.2.1⟩

set_option maxRecDepth 8000 in
/-- Claim C2, evaluation at the failing inputs: a create request whose title
is a single space (trimmed length 0) is accepted with 201 — neither the
handler's `req.Title == ""` check nor `Todo.IsValid` trims, although the
entity's own comment says `strings.TrimSpace` is applied; and an update
request carrying a 501-character description is accepted with 200, since
neither `TodoHandler.UpdateTodo` nor the service validates the description on
the update path.  The surrounding behavior matches the claim: byte lengths
1/100 for the title and 500 for the description are accepted on create, and
empty title, length 101 title and length 501 description are rejected
there. -/
theorem validation_gaps_at_failing_inputs :
    (handlerCreateTodo (.ok 1) 0 ⟨" ", ""⟩).status = 201 ∧
    goLen (goTrimSpace " ") = 0 ∧
    (handlerUpdateTodo 5 [⟨1, "t", "", false, 0, 0⟩] "1"
      ⟨none, some (repChar 501), none⟩).status = 200 ∧
    500 < goLen (repChar 501) ∧
    (handlerCreateTodo (.ok 1) 0 ⟨repChar 1, ""⟩).status = 201 ∧
    (handlerCreateTodo (.ok 1) 0 ⟨repChar 100, repChar 500⟩).status = 201 ∧
    (handlerCreateTodo (.ok 1) 0 ⟨"", ""⟩).status = 400 ∧
    (handlerCreateTodo (.ok 1) 0 ⟨repChar 101, ""⟩).status = 400 ∧
    (handlerCreateTodo (.ok 1) 0 ⟨"a", repChar 501⟩).status = 400 := by
  refine ⟨rfl, rfl, rfl, by decide, rfl, rfl, rfl, rfl, rfl⟩

/-- Claim C8, counterexample: a store failure during create is answered with
500, but the response body's `details` field carries the wrapped internal
driver error verbatim ("connection refused" included), contradicting "the body
contains only a generic message, leaking no internal error detail". -/
theorem store_failure_leak_cex :
    handlerCreateTodo (.error "connection refused") 0 ⟨"a", ""⟩ =
      ⟨500, .jsonError "Failed to create todo"
        "failed to create todo: failed to insert todo: connection refused"⟩ ∧
    strContains "failed to create todo: failed to insert todo: connection refused"
      "connection refused" = true := by
  refine ⟨rfl, by decide⟩

/-- Claim C8, amended: for every store failure on a validated create request
the status is 500 and the `error` field is the generic "Failed to create
todo", but the `details` field carries the wrapped internal error string, so
the driver message is leaked to the client rather than withheld. -/
theorem store_failure_amended (m : String) (now : Nat) (req : CreateReq)
    (h1 : req.title ≠ "") (h2 : goLen req.title ≤ 100)
    (h3 : goLen req.description ≤ 500) :
    handlerCreateTodo (.error m) now req =
      ⟨500, .jsonError "Failed to create todo"
        ("failed to create todo: failed to insert todo: " ++ m)⟩ ∧
    strContains ("failed to create todo: failed to insert todo: " ++ m) m = true := by
  constructor
  · have hpos : 0 < goLen req.title := goLen_pos _ h1
    have hvalid : (CreateReq.toEntity req).isValid = true := by
      simp [Todo.isValid, CreateReq.toEntity]
      exact ⟨hpos, h2⟩
    simp only [handlerCreateTodo, serviceCreateTodo, repoCreate,
      writeErrorResponse, if_neg h1, if_neg (not_lt.mpr h2), if_neg (not_lt.mpr h3),
      hvalid]
    rw [← String.append_assoc]
    rfl
  · exact strContains_append_right _ _ m (strContains_self m)

/-- Claim C8, amended, instantiated at the driver message "timeout". -/
theorem store_failure_amended_witness :
    handlerCreateTodo (.error "timeout") 0 ⟨"a", ""⟩ =
      ⟨500, .jsonError "Failed to create todo"
        ("failed to create todo: failed to insert todo: " ++ "timeout")⟩ ∧
    strContains ("failed to create todo: failed to insert todo: " ++ "timeout")
      "timeout" = true :=
  store_failure_amended "timeout" 0 ⟨"a", ""⟩ (by decide) (by decide) (by decide)

/-- Claim C6, counterexample: a CORS preflight OPTIONS request is
short-circuited by `SimpleCORSMiddleware` with a 200 before
`RequestIDMiddleware` (which sits inside it in the chain) ever runs, so the
preflight response carries no X-Request-ID header at all — contradicting "for
every inbound request, including CORS preflight OPTIONS requests". -/
theorem preflight_missing_request_id_cex :
    (fullChain "req_1" okHandler ⟨.OPTIONS, "/api/v1/todos", []⟩ []).xRequestID = none ∧
    (fullChain "req_1" okHandler ⟨.OPTIONS, "/api/v1/todos", []⟩ []).respOf.map
      MwResp.status = some 200 := by
  refine ⟨rfl, rfl⟩

/-- Claim C6, amended: for every non-OPTIONS request — whatever the inner
handler does, as long as it does not itself rewrite the X-Request-ID response
header — the response carries X-Request-ID, equal to the inbound header's
value when one was supplied and to the freshly generated token otherwise;
OPTIONS preflights are answered by the CORS middleware before the request-id
middleware runs and carry no such header. -/
theorem request_id_amended (fresh : String) (inner : MwHandler) (req : Request)
    (hmethod : ¬ req.method = .OPTIONS)
    (hpres : ∀ r hs, match inner r hs with
      | .done resp _ =>
        lookupHeader resp.headers "X-Request-ID" = lookupHeader hs "X-Request-ID"
      | .panicked _ h _ =>
        lookupHeader h "X-Request-ID" = lookupHeader hs "X-Request-ID") :
    (fullChain fresh inner req []).xRequestID =
      some (if getHeader req.headers "X-Request-ID" = "" then fresh
            else getHeader req.headers "X-Request-ID") := by
  show (RecoveryMiddleware (LoggingMiddleware (SimpleCORSMiddleware
    (RequestIDMiddleware fresh inner))) req []).xRequestID = _
  simp only [RecoveryMiddleware, LoggingMiddleware, SimpleCORSMiddleware,
    RequestIDMiddleware, if_neg hmethod]
  set rid := if getHeader req.headers "X-Request-ID" = "" then fresh
    else getHeader req.headers "X-Request-ID" with hrid
  set hs4 := setHeader (setHeader (setHeader (setHeader []
    "Access-Control-Allow-Origin" "*")
    "Access-Control-Allow-Methods" "GET, POST, PUT, DELETE, OPTIONS")
    "Access-Control-Allow-Headers" "Content-Type, Authorization")
    "X-Request-ID" rid with hhs4
  have hlook : lookupHeader hs4 "X-Request-ID" = some rid := by
    rw [hhs4]
    exact lookupHeader_set_same _ _ _
  have hp := hpres req hs4
  cases hinner : inner req hs4 with
  | done resp logs =>
    rw [hinner] at hp
    simp only [HResult.xRequestID]
    rw [hp, hlook]
  | panicked m h logs =>
    rw [hinner] at hp
    simp only [HResult.xRequestID]
    rw [lookupHeader_set_other _ _ _ _ (by decide),
      lookupHeader_set_other _ _ _ _ (by decide), hp, hlook]

/-- Claim C6, amended, instantiated: a GET without an inbound correlation
header gets the fresh token back; one with an inbound header gets it
echoed. -/
theorem request_id_amended_witness :
    (fullChain "req_9" okHandler ⟨.GET, "/api/v1/todos", []⟩ []).xRequestID =
      some "req_9" ∧
    (fullChain "req_9" okHandler
      ⟨.GET, "/api/v1/todos", [("X-Request-ID", "abc")]⟩ []).xRequestID =
      some "abc" := by
  constructor
  · have h := request_id_amended "req_9" okHandler ⟨.GET, "/api/v1/todos", []⟩
      (by decide) (fun r hs => rfl)
    simpa using h
  · have h := request_id_amended "req_9" okHandler
      ⟨.GET, "/api/v1/todos", [("X-Request-ID", "abc")]⟩
      (by decide) (fun r hs => rfl)
    simpa using h

/-- Claim C7, counterexample: with the full chain around a panicking inner
handler, the response is the recovered 500, but the access-log line is never
emitted — zero access entries are recorded — because `LoggingMiddleware` logs
after `next.ServeHTTP` returns (not in a defer) and the recovery point is
outside it, contradicting "the access-logging middleware still records a
status code and duration for that request". -/
theorem panic_skips_access_log_cex :
    accessCount (fullChain "req_1" (panicHandler "boom")
      ⟨.GET, "/api/v1/todos", []⟩ []).logsOf = 0 ∧
    (fullChain "req_1" (panicHandler "boom") ⟨.GET, "/api/v1/todos", []⟩
      []).respOf.map MwResp.status = some 500 ∧
    panicLogCount (fullChain "req_1" (panicHandler "boom")
      ⟨.GET, "/api/v1/todos", []⟩ []).logsOf = 1 := by
  refine ⟨rfl, rfl, rfl⟩

/-- Claim C7, amended: for every non-OPTIONS request whose inner handler
panics, the full chain converts the panic into a 500 response with the generic
plain-text body "Internal Server Error" plus newline — distinct from every
JSON validation-error body — and the panic never propagates past the Recovery
middleware (the chain always completes with a response); the Recovery layer
logs the panic once, but the access-logging middleware records nothing for
that request, its log line being skipped by the unwinding. -/
theorem recovery_amended (fresh msg : String) (req : Request) (hs : Headers)
    (hmethod : ¬ req.method = .OPTIONS) :
    (fullChain fresh (panicHandler msg) req hs).respOf.map MwResp.status =
      some 500 ∧
    (fullChain fresh (panicHandler msg) req hs).respOf.map MwResp.body =
      some (.text "Internal Server Error\n") ∧
    (∀ e d, (fullChain fresh (panicHandler msg) req hs).respOf.map MwResp.body ≠
      some (.jsonError e d)) ∧
    accessCount (fullChain fresh (panicHandler msg) req hs).logsOf = 0 ∧
    panicLogCount (fullChain fresh (panicHandler msg) req hs).logsOf = 1 := by
  have hred : fullChain fresh (panicHandler msg) req hs =
      RecoveryMiddleware (LoggingMiddleware (SimpleCORSMiddleware
        (RequestIDMiddleware fresh (panicHandler msg)))) req hs := rfl
  refine ⟨?_, ?_, ?_, ?_, ?_⟩ <;>
    simp [hred, RecoveryMiddleware, LoggingMiddleware, SimpleCORSMiddleware,
      RequestIDMiddleware, panicHandler, if_neg hmethod, HResult.respOf,
      HResult.logsOf, accessCount, panicLogCount]

/-- Claim C7, amended, instantiated at a concrete panicking GET request. -/
theorem recovery_amended_witness :
    (fullChain "req_1" (panicHandler "boom") ⟨.GET, "/api/v1/todos", []⟩
      []).respOf.map MwResp.status = some 500 ∧
    accessCount (fullChain "req_1" (panicHandler "boom")
      ⟨.GET, "/api/v1/todos", []⟩ []).logsOf = 0 :=
  ⟨(recovery_amended "req_1" "boom" ⟨.GET, "/api/v1/todos", []⟩ [] (by decide)).1,
   (recovery_amended "req_1" "boom" ⟨.GET, "/api/v1/todos", []⟩ []
     (by decide)).2.2.2.1⟩

/-- Claim C10: `CompleteTodo` and `IncompleteTodo` apply no `id ≤ 0` guard:
for every id — including id ≤ 0, for which the repository (whose stored rows
all have positive ids) finds no row — the service's first step is the
repository's `GetByID`, and the caller sees the repository's not-found style
error ("todo with ID ... not found: todo not found", which contains "not
found"), never the service's InvalidArgument message "invalid todo ID: must be
greater than 0". -/
theorem complete_incomplete_no_id_guard (now : Nat) (store : List Todo)
    (id : Int) (hid : id ≤ 0) (hpos : ∀ t ∈ store, 0 < t.id) :
    serviceCompleteTodo now store id =
      .error ("todo with ID " ++ toString id ++ " not found: todo not found") ∧
    serviceIncompleteTodo now store id =
      .error ("todo with ID " ++ toString id ++ " not found: todo not found") ∧
    strContains ("todo with ID " ++ toString id ++ " not found: todo not found")
      "not found" = true ∧
    ("todo with ID " ++ toString id ++ " not found: todo not found") ≠
      "invalid todo ID: must be greater than 0" := by
  have hfind : store.find? (fun r => r.id = id) = none := by
    rw [List.find?_eq_none]
    intro t ht
    have := hpos t ht
    simp only [decide_eq_true_eq]
    omega
  have hrepo : repoGetByID store id = .error "todo not found" := by
    simp [repoGetByID, hfind]
  have hmsg : (("todo with ID " ++ toString id) ++ " not found: ") ++
      "todo not found" =
      ("todo with ID " ++ toString id) ++ " not found: todo not found" := by
    rw [String.append_assoc]
    rfl
  have hcontains : strContains
      (("todo with ID " ++ toString id) ++ " not found: todo not found")
      "not found" = true := by
    exact strContains_append_right _ _ _ (by decide)
  refine ⟨?_, ?_, hcontains, ?_⟩
  · simp only [serviceCompleteTodo, hrepo]
    rw [hmsg]
  · simp only [serviceIncompleteTodo, hrepo]
    rw [hmsg]
  · intro h
    rw [h] at hcontains
    exact absurd hcontains (by decide)

/-- Claim C10, instantiated at id 0 on the empty store. -/
theorem complete_incomplete_no_id_guard_witness :
    serviceCompleteTodo 0 [] 0 =
      .error ("todo with ID " ++ toString (0 : Int) ++
        " not found: todo not found") ∧
    serviceIncompleteTodo 0 [] 0 =
      .error ("todo with ID " ++ toString (0 : Int) ++
        " not found: todo not found") :=
  ⟨(complete_incomplete_no_id_guard 0 [] 0 (by decide) (by simp)).1,
   (complete_incomplete_no_id_guard 0 [] 0 (by decide) (by simp)).2.1⟩
